import Mathlib

/-!
Shallow embedding of `src/zx/screen.rs` (ZX Spectrum screen module of rustzx).

Modelling conventions:
* `u8`/`u16`/`usize` values are `Nat`; wherever Rust wrapping could matter
  (shifts on `u8`/`u16`) an explicit `% 256` / `% 65536` is inserted.
* The fixed-size Rust arrays (bitmap grid, attribute grid, pixel buffer) are
  modelled as total index functions; an array store is a pointwise functional
  update.
* Rust `assert!` failures (panics) are modelled by the write entry points
  returning `Option`: `none` means the assertion fired and no state escapes.
-/

namespace RustZX

/-- `pub const CANVAS_WIDTH: usize = 256;` -/
def CANVAS_WIDTH : Nat := 256
/-- `pub const CANVAS_HEIGHT: usize = 192;` -/
def CANVAS_HEIGHT : Nat := 192
/-- `pub const CANVAS_X: usize = 32;` -/
def CANVAS_X : Nat := 32
/-- `pub const CANVAS_Y: usize = 24;` -/
def CANVAS_Y : Nat := 24
/-- `pub const SCREEN_WIDTH: usize = CANVAS_WIDTH + 32 * 2;` -/
def SCREEN_WIDTH : Nat := CANVAS_WIDTH + 32 * 2
/-- `pub const SCREEN_HEIGHT: usize = CANVAS_HEIGHT + 24 * 2;` -/
def SCREEN_HEIGHT : Nat := CANVAS_HEIGHT + 24 * 2
/-- `pub const PIXEL_COUNT: usize = SCREEN_HEIGHT * SCREEN_WIDTH;` -/
def PIXEL_COUNT : Nat := SCREEN_HEIGHT * SCREEN_WIDTH
/-- `pub const ATTR_COLS: usize = CANVAS_WIDTH / 8;` -/
def ATTR_COLS : Nat := CANVAS_WIDTH / 8
/-- `pub const ATTR_ROWS: usize = CANVAS_HEIGHT / 8;` -/
def ATTR_ROWS : Nat := CANVAS_HEIGHT / 8
/-- `pub const BYTES_PER_PIXEL: usize = 4;` -/
def BYTES_PER_PIXEL : Nat := 4

/-- Modelled from the spec: `utils::split_word` lives in the `utils` module,
which is not under `src/`.  The spec describes the bitmap decode as
re-assembling bit fields "from the address's high and low bytes", so
`split_word` splits a 16-bit word into its high and low byte. -/
def split_word (w : Nat) : Nat × Nat :=
  ((w >>> 8) &&& 0xFF, w &&& 0xFF)

/-- `get_bitmap_line_addr`: encode a pixel row into a display-file address.
Source: `0x4000 | (line << 5) & 0x1800 | (line << 8) & 0x0700 | (line << 2) & 0x00E0`
(`line : u16`, shifts wrap at 2^16). -/
def get_bitmap_line_addr (line : Nat) : Nat :=
  0x4000 ||| (((line <<< 5) % 65536) &&& 0x1800) |||
    (((line <<< 8) % 65536) &&& 0x0700) ||| (((line <<< 2) % 65536) &&& 0x00E0)

/-- `get_bitmap_line`: decode the pixel row from an address.
Source: `let (h, l) = split_word(addr); (h & 0x07) | ((l >> 2) & 0x38) | ((h << 3) & 0xC0)`
(`h : u8`, the shift wraps at 2^8). -/
def get_bitmap_line (addr : Nat) : Nat :=
  let hl := split_word addr
  (hl.1 &&& 0x07) ||| ((hl.2 >>> 2) &&& 0x38) ||| (((hl.1 <<< 3) % 256) &&& 0xC0)

/-- `get_bitmap_col`: low five bits of the low byte of the address. -/
def get_bitmap_col (addr : Nat) : Nat :=
  (split_word addr).2 &&& 0x1F

/-- `get_attr_row`: `(addr - 0x5800) / ATTR_COLS`.  (The Rust `u16`
subtraction is only invoked after `addr >= 0x5800` was asserted; `Nat`
truncated subtraction agrees on that domain.) -/
def get_attr_row (addr : Nat) : Nat :=
  (addr - 0x5800) / ATTR_COLS

/-- `get_attr_col`: `(addr - 0x5800) % ATTR_COLS`. -/
def get_attr_col (addr : Nat) : Nat :=
  (addr - 0x5800) % ATTR_COLS

/-- `enum ZXColor` — the eight ZX Spectrum colors. -/
inductive ZXColor where
  | Black
  | Blue
  | Red
  | Purple
  | Green
  | Cyan
  | Yellow
  | White
deriving DecidableEq

/-- `ZXColor::from_bits`: panics (here: `none`) when `bits > 7`, otherwise
maps the 3-bit code to its color.  The final `none` arm mirrors the
`unreachable!()` arm of the Rust `match`. -/
def ZXColor.from_bits (bits : Nat) : Option ZXColor :=
  if bits ≤ 7 then
    match bits with
    | 0 => some ZXColor.Black
    | 1 => some ZXColor.Blue
    | 2 => some ZXColor.Red
    | 3 => some ZXColor.Purple
    | 4 => some ZXColor.Green
    | 5 => some ZXColor.Cyan
    | 6 => some ZXColor.Yellow
    | 7 => some ZXColor.White
    | _ => none
  else
    none

/-- `struct ZXAttribute { ink, paper, flash, bright }`. -/
structure ZXAttribute where
  ink : ZXColor
  paper : ZXColor
  flash : Bool
  bright : Bool
deriving DecidableEq

/-- `ZXAttribute::from_byte`: ink = low 3 bits, paper = next 3 bits,
flash = bit 7, bright = bit 6.  Both `from_bits` arguments are masked with
`0x07`, so the assertion inside `from_bits` can never fire; `getD` only
names a formal default for the unreachable `none`. -/
def ZXAttribute.from_byte (data : Nat) : ZXAttribute :=
  { ink := (ZXColor.from_bits (data &&& 0x07)).getD ZXColor.Black
    paper := (ZXColor.from_bits ((data >>> 3) &&& 0x07)).getD ZXColor.Black
    flash := (data &&& 0x80) ≠ 0
    bright := (data &&& 0x40) ≠ 0 }

/-- One RGBA pixel, the `[u8; BYTES_PER_PIXEL]` quadruplet of the source. -/
structure RGBA where
  r : Nat
  g : Nat
  b : Nat
  a : Nat
deriving DecidableEq

/-- `struct ZXPalette;` — a fieldless palette marker type. -/
structure ZXPalette
deriving DecidableEq

/-- `ZXPalette::default`. -/
def ZXPalette.default : ZXPalette := ZXPalette.mk

/-- `ZXPalette::get_rgba`: select ink or paper by
`state ^ (attr.flash & flash_state)`, intensity `0xFF` when bright else
`0x88`, and map the color to its RGBA quadruplet. -/
def ZXPalette.get_rgba (_self : ZXPalette) (attr : ZXAttribute) (state : Bool)
    (flash_state : Bool) : RGBA :=
  let base_color := if attr.bright then 0xFF else 0x88
  let color := if Bool.xor state (attr.flash && flash_state) then attr.ink else attr.paper
  match color with
  | ZXColor.Black => ⟨0x00, 0x00, 0x00, 0xFF⟩
  | ZXColor.Blue => ⟨0x00, 0x00, base_color, 0xFF⟩
  | ZXColor.Red => ⟨base_color, 0x00, 0x00, 0xFF⟩
  | ZXColor.Purple => ⟨base_color, 0x00, base_color, 0xFF⟩
  | ZXColor.Green => ⟨0x00, base_color, 0x00, 0xFF⟩
  | ZXColor.Cyan => ⟨0x00, base_color, base_color, 0xFF⟩
  | ZXColor.Yellow => ⟨base_color, base_color, 0x00, 0xFF⟩
  | ZXColor.White => ⟨base_color, base_color, base_color, 0xFF⟩

/-- Modelled from the spec: `z80::Clocks` is not under `src/`; the spec says a
clock value is a non-negative counter of cycles elapsed since frame start,
read through `count()`. -/
structure Clocks where
  count : Nat
deriving DecidableEq

/-- Modelled from the spec: the machine timing spec
`{clocksFirstPixel, clocksLine}` supplied by the machine-specification
provider (`zx::machine`, not under `src/`). -/
structure ZXSpecs where
  clocks_first_pixel : Nat
  clocks_line : Nat
deriving DecidableEq

/-- Modelled from the spec: `ZXMachine` is the owning machine reference
through which the timing constants are looked up (`specs()`); it is reduced
to the record of those constants. -/
structure ZXMachine where
  specs : ZXSpecs
deriving DecidableEq

/-- `struct ZXScreen` — attribute grid, bitmap grid, RGBA pixel buffer,
machine reference, palette, flash phase and frame counter.  Grids and the
byte buffer are modelled as total index functions. -/
structure ZXScreen where
  attributes : Nat → Nat → ZXAttribute
  bitmap : Nat → Nat → Nat
  buffer : Nat → Nat
  machine : ZXMachine
  palette : ZXPalette
  flash : Bool
  frame_counter : Nat

/-- `ZXScreen::new`: zeroed grids and buffer, flash off, frame counter 0. -/
def ZXScreen.new (machine_type : ZXMachine) (palette_type : ZXPalette) : ZXScreen :=
  { attributes := fun _ _ => ZXAttribute.from_byte 0
    bitmap := fun _ _ => 0
    buffer := fun _ => 0
    machine := machine_type
    palette := palette_type
    flash := false
    frame_counter := 0 }

/-- Write one RGBA quadruplet at byte offset `base` of the buffer
(the `clone_from_slice` of a 4-byte slice). -/
def writeRGBA (buf : Nat → Nat) (base : Nat) (c : RGBA) : Nat → Nat :=
  fun i =>
    if i = base then c.r
    else if i = base + 1 then c.g
    else if i = base + 2 then c.b
    else if i = base + 3 then c.a
    else buf i

/-- Read one RGBA quadruplet at byte offset `base` of the buffer. -/
def readRGBA (buf : Nat → Nat) (base : Nat) : RGBA :=
  ⟨buf base, buf (base + 1), buf (base + 2), buf (base + 3)⟩

/-- `let state = ((data << bit) & 0x80) != 0;` — `data : u8`, so the shift
wraps at 2^8 (the wrap is made explicit even though the `0x80` mask already
absorbs it). -/
def pixel_state (data bit : Nat) : Bool :=
  decide ((((data <<< bit) % 256) &&& 0x80) ≠ 0)

/-- The first `bit` iterations of the pixel loop of `update_buffer_block`:
write pixels `0, 1, ..., bit-1` of the 8x1 block based at byte index
`base`. -/
def write_block_pixels (p : ZXPalette) (buf : Nat → Nat) (base : Nat)
    (data : Nat) (attr : ZXAttribute) (flash : Bool) : Nat → (Nat → Nat)
  | 0 => buf
  | n + 1 =>
    writeRGBA (write_block_pixels p buf base data attr flash n)
      (base + n * BYTES_PER_PIXEL)
      (ZXPalette.get_rgba p attr (pixel_state data n) flash)

/-- Byte index of the first byte of the 8x1 block `(line, col)`:
`(((line + CANVAS_Y) * SCREEN_WIDTH) + CANVAS_X + col * 8) * BYTES_PER_PIXEL`. -/
def blockBase (line col : Nat) : Nat :=
  (((line + CANVAS_Y) * SCREEN_WIDTH) + CANVAS_X + col * 8) * BYTES_PER_PIXEL

/-- `ZXScreen::update_buffer_block`: recompute the 8x1 block `(line, col)`
of the pixel buffer from the bitmap byte and its attribute. -/
def ZXScreen.update_buffer_block (s : ZXScreen) (line col : Nat) : ZXScreen :=
  let data := s.bitmap line col
  let row := line / 8
  let block_attr := s.attributes row col
  { s with
    buffer := write_block_pixels s.palette s.buffer (blockBase line col)
      data block_attr s.flash 8 }

/-- The first `x` iterations of the inner loop of `set_border` on row `y`. -/
def border_fill_row (buf : Nat → Nat) (y : Nat) (c : RGBA) : Nat → (Nat → Nat)
  | 0 => buf
  | n + 1 =>
    writeRGBA (border_fill_row buf y c n) ((y * SCREEN_WIDTH + n) * BYTES_PER_PIXEL) c

/-- The first `y` iterations of the outer loop of `set_border`. -/
def border_fill (buf : Nat → Nat) (c : RGBA) : Nat → (Nat → Nat)
  | 0 => buf
  | n + 1 => border_fill_row (border_fill buf c n) n c 16

/-- `ZXScreen::set_border`: decode the color byte as an attribute, take its
ink RGBA (`state = true`, `flash_state = false`) and fill the 16x16 pixel
patch at the origin corner.  The clock argument is ignored (`_clocks`). -/
def ZXScreen.set_border (s : ZXScreen) (color : Nat) (_clocks : Clocks) : ZXScreen :=
  let attr := ZXAttribute.from_byte color
  let c := ZXPalette.get_rgba s.palette attr true false
  { s with buffer := border_fill s.buffer c 16 }

/-- The first `col` iterations of the inner redraw loop of `new_frame` on
row `line`. -/
def redraw_cols (s : ZXScreen) (line : Nat) : Nat → ZXScreen
  | 0 => s
  | n + 1 => (redraw_cols s line n).update_buffer_block line n

/-- The first `line` iterations of the outer redraw loop of `new_frame`. -/
def redraw_lines (s : ZXScreen) : Nat → ZXScreen
  | 0 => s
  | n + 1 => redraw_cols (redraw_lines s n) n ATTR_COLS

/-- `ZXScreen::new_frame`: increment the frame counter (`u64`, wraps at
2^64), toggle the flash phase every 32 frames, then redraw every 8x1 block
of the canvas. -/
def ZXScreen.new_frame (s : ZXScreen) : ZXScreen :=
  let fc := (s.frame_counter + 1) % 18446744073709551616
  let fl := if fc % 32 = 0 then !s.flash else s.flash
  redraw_lines { s with frame_counter := fc, flash := fl } CANVAS_HEIGHT

/-- `ZXScreen::write_bitmap_byte`: assert the address range (panic modelled
as `none`), store the byte into the bitmap grid, and redraw the single 8x1
block when the beam has not yet reached it. -/
def ZXScreen.write_bitmap_byte (s : ZXScreen) (addr : Nat) (clocks : Clocks)
    (data : Nat) : Option ZXScreen :=
  if 0x4000 ≤ addr ∧ addr ≤ 0x57FF then
    let line := get_bitmap_line addr
    let col := get_bitmap_col addr
    let s1 := { s with
      bitmap := fun l c => if l = line ∧ c = col then data else s.bitmap l c }
    let specs := s.machine.specs
    let clocks_origin := specs.clocks_first_pixel + 2
    let block_time := clocks_origin + line * specs.clocks_line + (col / 2) * 8
    some (if clocks.count < block_time then s1.update_buffer_block line col else s1)
  else
    none

/-- Iterate `update_buffer_block` on lines `a, a+1, ..., a+n-1` of column
`col` (the `for line_shift in a..b` loop of `write_attr_byte`, with
`n = b - a`). -/
def redraw_from (s : ZXScreen) (col a : Nat) : Nat → ZXScreen
  | 0 => s
  | n + 1 => redraw_from (s.update_buffer_block a col) col (a + 1) n

/-- The `beam_line` computation of `write_attr_byte`, with
`clocks_origin = specs.clocks_first_pixel + 2` inlined:
`if clocks.count() < clocks_origin + (col / 2 * 8) { 0 } else
 ((clocks.count() - (clocks_origin + (col / 2 * 8))) / specs.clocks_line) + 1`. -/
def beam_line_calc (specs : ZXSpecs) (clk col : Nat) : Nat :=
  if clk < specs.clocks_first_pixel + 2 + (col / 2 * 8) then 0
  else ((clk - (specs.clocks_first_pixel + 2 + (col / 2 * 8))) / specs.clocks_line) + 1

/-- The three-way `block_time` threshold of `write_attr_byte`, with
`clocks_origin = specs.clocks_first_pixel + 2` inlined. -/
def attr_block_time (specs : ZXSpecs) (clk row col : Nat) : Nat :=
  if beam_line_calc specs clk col ≤ row * 8 then
    specs.clocks_first_pixel + 2 + (row * 8) * specs.clocks_line + (col / 2) * 8
  else if beam_line_calc specs clk col < (row + 1) * 8 then
    specs.clocks_first_pixel + 2 + (row * 8 + beam_line_calc specs clk col % 8) * specs.clocks_line +
      (col / 2) * 8
  else
    specs.clocks_first_pixel + 2 + ((row * 8) + 7) * specs.clocks_line + (col / 2) * 8

/-- `ZXScreen::write_attr_byte`: assert the address range (panic modelled as
`none`), store the decoded attribute, compute the beam line and the
three-way block-time threshold, and redraw the not-yet-scanned rows of the
attribute cell when the beam has not passed. -/
def ZXScreen.write_attr_byte (s : ZXScreen) (addr : Nat) (clocks : Clocks)
    (value : Nat) : Option ZXScreen :=
  if 0x5800 ≤ addr ∧ addr ≤ 0x5AFF then
    let row := get_attr_row addr
    let col := get_attr_col addr
    let s1 := { s with
      attributes := fun r c =>
        if r = row ∧ c = col then ZXAttribute.from_byte value else s.attributes r c }
    let beam_line := beam_line_calc s.machine.specs clocks.count col
    let block_time := attr_block_time s.machine.specs clocks.count row col
    some (if clocks.count < block_time then
      redraw_from s1 col (beam_line % 8 + row * 8) ((row + 1) * 8 - (beam_line % 8 + row * 8))
    else s1)
  else
    none

/-- `ZXScreen::clone_texture`: the read-only view of the pixel buffer. -/
def ZXScreen.clone_texture (s : ZXScreen) : Nat → Nat :=
  s.buffer

/-- Iterate `new_frame` `k` times. -/
def iter_new_frame (s : ZXScreen) : Nat → ZXScreen
  | 0 => s
  | k + 1 => (iter_new_frame s k).new_frame

/-- Byte index `i` of the pixel buffer lies in the canvas interior: its pixel
has x in [CANVAS_X, CANVAS_X + CANVAS_WIDTH) and y in
[CANVAS_Y, CANVAS_Y + CANVAS_HEIGHT). -/
def inCanvas (i : Nat) : Prop :=
  CANVAS_X ≤ i / BYTES_PER_PIXEL % SCREEN_WIDTH ∧
  i / BYTES_PER_PIXEL % SCREEN_WIDTH < CANVAS_X + CANVAS_WIDTH ∧
  CANVAS_Y ≤ i / BYTES_PER_PIXEL / SCREEN_WIDTH ∧
  i / BYTES_PER_PIXEL / SCREEN_WIDTH < CANVAS_Y + CANVAS_HEIGHT

instance (i : Nat) : Decidable (inCanvas i) := by
  unfold inCanvas
  infer_instance

/-- Byte index `i` of the pixel buffer belongs to the 16x16 pixel patch at
the top-left corner of the frame (the region `set_border` fills). -/
def inBorderPatch (i : Nat) : Prop :=
  i / BYTES_PER_PIXEL % SCREEN_WIDTH < 16 ∧ i / BYTES_PER_PIXEL / SCREEN_WIDTH < 16

instance (i : Nat) : Decidable (inBorderPatch i) := by
  unfold inBorderPatch
  infer_instance

/-- Byte index `i` of the pixel buffer lies in the border region: inside the
buffer but outside the canvas interior. -/
def inBorder (i : Nat) : Prop :=
  i < PIXEL_COUNT * BYTES_PER_PIXEL ∧ ¬inCanvas i

/-! ### Buffer write frame lemmas -/

theorem writeRGBA_outside (buf : Nat → Nat) (base : Nat) (c : RGBA) (i : Nat)
    (h : i < base ∨ base + 4 ≤ i) :
    writeRGBA buf base c i = buf i := by
  unfold writeRGBA
  rw [if_neg (by omega), if_neg (by omega), if_neg (by omega), if_neg (by omega)]

theorem readRGBA_writeRGBA_self (buf : Nat → Nat) (base : Nat) (c : RGBA) :
    readRGBA (writeRGBA buf base c) base = c := by
  have e1 : base + 1 ≠ base := by omega
  have e2 : base + 2 ≠ base := by omega
  have e3 : base + 2 ≠ base + 1 := by omega
  have e4 : base + 3 ≠ base := by omega
  have e5 : base + 3 ≠ base + 1 := by omega
  have e6 : base + 3 ≠ base + 2 := by omega
  simp [readRGBA, writeRGBA, e1, e2, e3, e4, e5, e6]

theorem readRGBA_writeRGBA_disjoint (buf : Nat → Nat) (base : Nat) (c : RGBA)
    (base2 : Nat) (h : base2 + 4 ≤ base ∨ base + 4 ≤ base2) :
    readRGBA (writeRGBA buf base c) base2 = readRGBA buf base2 := by
  unfold readRGBA
  rw [writeRGBA_outside _ _ _ _ (by omega), writeRGBA_outside _ _ _ _ (by omega),
    writeRGBA_outside _ _ _ _ (by omega), writeRGBA_outside _ _ _ _ (by omega)]

theorem write_block_pixels_outside (p : ZXPalette) (buf : Nat → Nat)
    (base data : Nat) (attr : ZXAttribute) (fl : Bool) (n i : Nat)
    (h : i < base ∨ base + n * 4 ≤ i) :
    write_block_pixels p buf base data attr fl n i = buf i := by
  induction n with
  | zero => rfl
  | succ m ih =>
    show writeRGBA (write_block_pixels p buf base data attr fl m)
      (base + m * BYTES_PER_PIXEL)
      (ZXPalette.get_rgba p attr (pixel_state data m) fl) i = buf i
    have hb : BYTES_PER_PIXEL = 4 := rfl
    rw [hb, writeRGBA_outside _ _ _ _ (by omega)]
    exact ih (by omega)

theorem write_block_pixels_read (p : ZXPalette) (buf : Nat → Nat)
    (base data : Nat) (attr : ZXAttribute) (fl : Bool) (n bit : Nat)
    (h : bit < n) :
    readRGBA (write_block_pixels p buf base data attr fl n) (base + bit * 4) =
      ZXPalette.get_rgba p attr (pixel_state data bit) fl := by
  induction n with
  | zero => omega
  | succ m ih =>
    show readRGBA (writeRGBA (write_block_pixels p buf base data attr fl m)
      (base + m * BYTES_PER_PIXEL)
      (ZXPalette.get_rgba p attr (pixel_state data m) fl)) (base + bit * 4) = _
    have hb : BYTES_PER_PIXEL = 4 := rfl
    rw [hb]
    by_cases hbm : bit = m
    · subst hbm
      exact readRGBA_writeRGBA_self _ _ _
    · rw [readRGBA_writeRGBA_disjoint _ _ _ _ (by omega)]
      exact ih (by omega)

theorem blockBase_eq (line col : Nat) :
    blockBase line col = 1280 * line + 32 * col + 30848 := by
  simp [blockBase, SCREEN_WIDTH, CANVAS_WIDTH, CANVAS_X, CANVAS_Y, BYTES_PER_PIXEL]
  ring

theorem update_buffer_block_bitmap (s : ZXScreen) (line col : Nat) :
    (s.update_buffer_block line col).bitmap = s.bitmap := rfl

theorem update_buffer_block_attributes (s : ZXScreen) (line col : Nat) :
    (s.update_buffer_block line col).attributes = s.attributes := rfl

theorem update_buffer_block_machine (s : ZXScreen) (line col : Nat) :
    (s.update_buffer_block line col).machine = s.machine := rfl

theorem update_buffer_block_palette (s : ZXScreen) (line col : Nat) :
    (s.update_buffer_block line col).palette = s.palette := rfl

theorem update_buffer_block_flash (s : ZXScreen) (line col : Nat) :
    (s.update_buffer_block line col).flash = s.flash := rfl

theorem update_buffer_block_frame_counter (s : ZXScreen) (line col : Nat) :
    (s.update_buffer_block line col).frame_counter = s.frame_counter := rfl

theorem update_buffer_block_outside (s : ZXScreen) (line col i : Nat)
    (h : i < blockBase line col ∨ blockBase line col + 32 ≤ i) :
    (s.update_buffer_block line col).buffer i = s.buffer i := by
  show write_block_pixels s.palette s.buffer (blockBase line col)
    (s.bitmap line col) (s.attributes (line / 8) col) s.flash 8 i = s.buffer i
  exact write_block_pixels_outside _ _ _ _ _ _ 8 i (by omega)

theorem update_buffer_block_read (s : ZXScreen) (line col bit : Nat)
    (h : bit < 8) :
    readRGBA (s.update_buffer_block line col).buffer (blockBase line col + bit * 4) =
      ZXPalette.get_rgba s.palette (s.attributes (line / 8) col)
        (pixel_state (s.bitmap line col) bit) s.flash := by
  show readRGBA (write_block_pixels s.palette s.buffer (blockBase line col)
    (s.bitmap line col) (s.attributes (line / 8) col) s.flash 8) (blockBase line col + bit * 4) = _
  exact write_block_pixels_read _ _ _ _ _ _ 8 bit h

theorem redraw_from_fields (s : ZXScreen) (col a n : Nat) :
    (redraw_from s col a n).bitmap = s.bitmap ∧
    (redraw_from s col a n).attributes = s.attributes ∧
    (redraw_from s col a n).machine = s.machine ∧
    (redraw_from s col a n).palette = s.palette ∧
    (redraw_from s col a n).flash = s.flash ∧
    (redraw_from s col a n).frame_counter = s.frame_counter := by
  induction n generalizing s a with
  | zero => exact ⟨rfl, rfl, rfl, rfl, rfl, rfl⟩
  | succ m ih => exact ih (s.update_buffer_block a col) (a + 1)

theorem redraw_from_outside (s : ZXScreen) (col a n i : Nat)
    (h : ∀ k, k < n → i < blockBase (a + k) col ∨ blockBase (a + k) col + 32 ≤ i) :
    (redraw_from s col a n).buffer i = s.buffer i := by
  induction n generalizing s a with
  | zero => rfl
  | succ m ih =>
    show (redraw_from (s.update_buffer_block a col) col (a + 1) m).buffer i = s.buffer i
    refine (ih (s.update_buffer_block a col) (a + 1) ?_).trans
      (update_buffer_block_outside s a col i ?_)
    · intro k hk
      have e : a + 1 + k = a + (k + 1) := by omega
      rw [e]
      exact h (k + 1) (by omega)
    · have h0 := h 0 (by omega)
      simpa using h0

theorem redraw_from_outside_read (s : ZXScreen) (col a n b2 : Nat)
    (h : ∀ k, k < n → b2 + 4 ≤ blockBase (a + k) col ∨ blockBase (a + k) col + 32 ≤ b2) :
    readRGBA (redraw_from s col a n).buffer b2 = readRGBA s.buffer b2 := by
  unfold readRGBA
  rw [redraw_from_outside s col a n b2 (by intro k hk; have := h k hk; omega),
    redraw_from_outside s col a n (b2 + 1) (by intro k hk; have := h k hk; omega),
    redraw_from_outside s col a n (b2 + 2) (by intro k hk; have := h k hk; omega),
    redraw_from_outside s col a n (b2 + 3) (by intro k hk; have := h k hk; omega)]

theorem redraw_from_read (s : ZXScreen) (col a n k bit : Nat)
    (hk : k < n) (hbit : bit < 8) :
    readRGBA (redraw_from s col a n).buffer (blockBase (a + k) col + bit * 4) =
      ZXPalette.get_rgba s.palette (s.attributes ((a + k) / 8) col)
        (pixel_state (s.bitmap (a + k) col) bit) s.flash := by
  induction n generalizing s a k with
  | zero => omega
  | succ m ih =>
    show readRGBA (redraw_from (s.update_buffer_block a col) col (a + 1) m).buffer
      (blockBase (a + k) col + bit * 4) = _
    by_cases hk0 : k = 0
    · subst hk0
      rw [redraw_from_outside_read (s.update_buffer_block a col) col (a + 1) m
        (blockBase (a + 0) col + bit * 4) ?_]
      · simpa using update_buffer_block_read s a col bit hbit
      · intro kk hkk
        simp only [blockBase_eq]
        omega
    · have ih2 := ih (s.update_buffer_block a col) (a + 1) (k - 1) (by omega)
      have e : a + 1 + (k - 1) = a + k := by omega
      rw [e] at ih2
      exact ih2

/-! ### Border fill lemmas -/

theorem border_fill_row_outside (buf : Nat → Nat) (y : Nat) (c : RGBA) (n i : Nat)
    (h : ∀ x, x < n →
      i < (y * SCREEN_WIDTH + x) * BYTES_PER_PIXEL ∨
        (y * SCREEN_WIDTH + x) * BYTES_PER_PIXEL + 4 ≤ i) :
    border_fill_row buf y c n i = buf i := by
  induction n with
  | zero => rfl
  | succ m ih =>
    show writeRGBA (border_fill_row buf y c m) ((y * SCREEN_WIDTH + m) * BYTES_PER_PIXEL) c i =
      buf i
    rw [writeRGBA_outside _ _ _ _ (by have := h m (by omega); omega)]
    exact ih (fun x hx => h x (by omega))

theorem border_fill_row_read (buf : Nat → Nat) (y : Nat) (c : RGBA) (n x : Nat)
    (hx : x < n) :
    readRGBA (border_fill_row buf y c n) ((y * SCREEN_WIDTH + x) * BYTES_PER_PIXEL) = c := by
  induction n with
  | zero => omega
  | succ m ih =>
    show readRGBA (writeRGBA (border_fill_row buf y c m)
      ((y * SCREEN_WIDTH + m) * BYTES_PER_PIXEL) c) ((y * SCREEN_WIDTH + x) * BYTES_PER_PIXEL) = c
    by_cases hxm : x = m
    · subst hxm
      exact readRGBA_writeRGBA_self _ _ _
    · rw [readRGBA_writeRGBA_disjoint _ _ _ _ ?_]
      · exact ih (by omega)
      · have e : BYTES_PER_PIXEL = 4 := rfl
        rw [e]
        omega

theorem border_fill_outside (buf : Nat → Nat) (c : RGBA) (n i : Nat)
    (h : ∀ y x, y < n → x < 16 →
      i < (y * SCREEN_WIDTH + x) * BYTES_PER_PIXEL ∨
        (y * SCREEN_WIDTH + x) * BYTES_PER_PIXEL + 4 ≤ i) :
    border_fill buf c n i = buf i := by
  induction n with
  | zero => rfl
  | succ m ih =>
    show border_fill_row (border_fill buf c m) m c 16 i = buf i
    rw [border_fill_row_outside _ _ _ _ _ (fun x hx => h m x (by omega) hx)]
    exact ih (fun y x hy hx => h y x (by omega) hx)

theorem border_fill_read (buf : Nat → Nat) (c : RGBA) (n y x : Nat)
    (hy : y < n) (hx : x < 16) :
    readRGBA (border_fill buf c n) ((y * SCREEN_WIDTH + x) * BYTES_PER_PIXEL) = c := by
  induction n with
  | zero => omega
  | succ m ih =>
    show readRGBA (border_fill_row (border_fill buf c m) m c 16)
      ((y * SCREEN_WIDTH + x) * BYTES_PER_PIXEL) = c
    by_cases hym : y = m
    · subst hym
      exact border_fill_row_read _ _ _ _ _ hx
    · have hread : ∀ j, (y * SCREEN_WIDTH + x) * BYTES_PER_PIXEL ≤ j →
          j < (y * SCREEN_WIDTH + x) * BYTES_PER_PIXEL + 4 →
          border_fill_row (border_fill buf c m) m c 16 j = border_fill buf c m j := by
        intro j hj1 hj2
        apply border_fill_row_outside
        intro x2 hx2
        simp only [SCREEN_WIDTH, CANVAS_WIDTH, BYTES_PER_PIXEL] at hj1 hj2 ⊢
        omega
      unfold readRGBA
      rw [hread _ (by omega) (by omega), hread _ (by omega) (by omega),
        hread _ (by omega) (by omega), hread _ (by omega) (by omega)]
      exact ih (by omega)

/-! ### Region confinement lemmas -/

theorem set_border_fields (s : ZXScreen) (color : Nat) (clocks : Clocks) :
    (s.set_border color clocks).bitmap = s.bitmap ∧
    (s.set_border color clocks).attributes = s.attributes ∧
    (s.set_border color clocks).machine = s.machine ∧
    (s.set_border color clocks).palette = s.palette ∧
    (s.set_border color clocks).flash = s.flash ∧
    (s.set_border color clocks).frame_counter = s.frame_counter :=
  ⟨rfl, rfl, rfl, rfl, rfl, rfl⟩

theorem set_border_outside (s : ZXScreen) (color : Nat) (clocks : Clocks) (i : Nat)
    (h : ¬inBorderPatch i) :
    (s.set_border color clocks).buffer i = s.buffer i := by
  show border_fill s.buffer
    (ZXPalette.get_rgba s.palette (ZXAttribute.from_byte color) true false) 16 i = s.buffer i
  apply border_fill_outside
  intro y x hy hx
  by_contra hcon
  apply h
  have e : SCREEN_WIDTH = 320 := rfl
  have e2 : BYTES_PER_PIXEL = 4 := rfl
  rw [e, e2] at hcon
  unfold inBorderPatch
  rw [e, e2]
  omega

theorem set_border_read (s : ZXScreen) (color : Nat) (clocks : Clocks) (y x : Nat)
    (hy : y < 16) (hx : x < 16) :
    readRGBA (s.set_border color clocks).buffer ((y * SCREEN_WIDTH + x) * BYTES_PER_PIXEL) =
      ZXPalette.get_rgba s.palette (ZXAttribute.from_byte color) true false := by
  show readRGBA (border_fill s.buffer
    (ZXPalette.get_rgba s.palette (ZXAttribute.from_byte color) true false) 16)
    ((y * SCREEN_WIDTH + x) * BYTES_PER_PIXEL) = _
  exact border_fill_read _ _ _ _ _ hy hx

theorem borderPatch_subset_border (i : Nat) (h : inBorderPatch i) : inBorder i := by
  unfold inBorderPatch at h
  unfold inBorder inCanvas
  have e : SCREEN_WIDTH = 320 := rfl
  have e2 : BYTES_PER_PIXEL = 4 := rfl
  have e3 : PIXEL_COUNT = 240 * 320 := rfl
  have e4 : CANVAS_X = 32 := rfl
  have e5 : CANVAS_Y = 24 := rfl
  have e6 : CANVAS_WIDTH = 256 := rfl
  have e7 : CANVAS_HEIGHT = 192 := rfl
  rw [e, e2] at h
  rw [e, e2, e3, e4, e5, e6, e7]
  omega

theorem update_buffer_block_canvas (s : ZXScreen) (line col i : Nat)
    (hl : line < 192) (hcol : col < 32) (h : ¬inCanvas i) :
    (s.update_buffer_block line col).buffer i = s.buffer i := by
  apply update_buffer_block_outside
  by_contra hcon
  apply h
  unfold inCanvas
  have e : SCREEN_WIDTH = 320 := rfl
  have e2 : BYTES_PER_PIXEL = 4 := rfl
  have e4 : CANVAS_X = 32 := rfl
  have e5 : CANVAS_Y = 24 := rfl
  have e6 : CANVAS_WIDTH = 256 := rfl
  have e7 : CANVAS_HEIGHT = 192 := rfl
  rw [blockBase_eq] at hcon
  rw [e, e2, e4, e5, e6, e7]
  omega

theorem redraw_from_canvas (s : ZXScreen) (col a n i : Nat)
    (hcol : col < 32) (hline : a + n ≤ 192) (h : ¬inCanvas i) :
    (redraw_from s col a n).buffer i = s.buffer i := by
  induction n generalizing s a with
  | zero => rfl
  | succ m ih =>
    show (redraw_from (s.update_buffer_block a col) col (a + 1) m).buffer i = s.buffer i
    rw [ih (s.update_buffer_block a col) (a + 1) (by omega)]
    exact update_buffer_block_canvas s a col i (by omega) hcol h

theorem redraw_cols_canvas (s : ZXScreen) (line n i : Nat)
    (hline : line < 192) (hn : n ≤ 32) (h : ¬inCanvas i) :
    (redraw_cols s line n).buffer i = s.buffer i := by
  induction n with
  | zero => rfl
  | succ m ih =>
    show ((redraw_cols s line m).update_buffer_block line m).buffer i = s.buffer i
    rw [update_buffer_block_canvas _ line m i hline (by omega) h]
    exact ih (by omega)

theorem redraw_cols_fields (s : ZXScreen) (line n : Nat) :
    (redraw_cols s line n).bitmap = s.bitmap ∧
    (redraw_cols s line n).attributes = s.attributes ∧
    (redraw_cols s line n).machine = s.machine ∧
    (redraw_cols s line n).palette = s.palette ∧
    (redraw_cols s line n).flash = s.flash ∧
    (redraw_cols s line n).frame_counter = s.frame_counter := by
  induction n with
  | zero => exact ⟨rfl, rfl, rfl, rfl, rfl, rfl⟩
  | succ m ih => exact ih

theorem redraw_lines_canvas (s : ZXScreen) (n i : Nat)
    (hn : n ≤ 192) (h : ¬inCanvas i) :
    (redraw_lines s n).buffer i = s.buffer i := by
  induction n with
  | zero => rfl
  | succ m ih =>
    show (redraw_cols (redraw_lines s m) m ATTR_COLS).buffer i = s.buffer i
    rw [redraw_cols_canvas _ m ATTR_COLS i (by omega) (by decide) h]
    exact ih (by omega)

theorem redraw_lines_fields (s : ZXScreen) (n : Nat) :
    (redraw_lines s n).bitmap = s.bitmap ∧
    (redraw_lines s n).attributes = s.attributes ∧
    (redraw_lines s n).machine = s.machine ∧
    (redraw_lines s n).palette = s.palette ∧
    (redraw_lines s n).flash = s.flash ∧
    (redraw_lines s n).frame_counter = s.frame_counter := by
  induction n with
  | zero => exact ⟨rfl, rfl, rfl, rfl, rfl, rfl⟩
  | succ m ih =>
    have hc := redraw_cols_fields (redraw_lines s m) m ATTR_COLS
    exact ⟨hc.1.trans ih.1, hc.2.1.trans ih.2.1, hc.2.2.1.trans ih.2.2.1,
      hc.2.2.2.1.trans ih.2.2.2.1, hc.2.2.2.2.1.trans ih.2.2.2.2.1,
      hc.2.2.2.2.2.trans ih.2.2.2.2.2⟩

theorem new_frame_canvas (s : ZXScreen) (i : Nat) (h : ¬inCanvas i) :
    (s.new_frame).buffer i = s.buffer i := by
  show (redraw_lines _ CANVAS_HEIGHT).buffer i = s.buffer i
  rw [redraw_lines_canvas _ CANVAS_HEIGHT i (by decide) h]

theorem new_frame_flash_fc (s : ZXScreen) :
    (s.new_frame).frame_counter = (s.frame_counter + 1) % 18446744073709551616 ∧
    (s.new_frame).flash =
      (if (s.frame_counter + 1) % 18446744073709551616 % 32 = 0 then !s.flash
       else s.flash) := by
  have hf := redraw_lines_fields { s with
    frame_counter := (s.frame_counter + 1) % 18446744073709551616
    flash := if (s.frame_counter + 1) % 18446744073709551616 % 32 = 0 then !s.flash
      else s.flash } CANVAS_HEIGHT
  exact ⟨hf.2.2.2.2.2, hf.2.2.2.2.1⟩

theorem iter_new_frame_state (m : ZXMachine) (p : ZXPalette) (k : Nat) :
    (iter_new_frame (ZXScreen.new m p) k).frame_counter = k % 18446744073709551616 ∧
    (iter_new_frame (ZXScreen.new m p) k).flash = decide ((k / 32) % 2 = 1) := by
  induction k with
  | zero => exact ⟨rfl, rfl⟩
  | succ n ih =>
    obtain ⟨hfc, hfl⟩ := ih
    have h1 := new_frame_flash_fc (iter_new_frame (ZXScreen.new m p) n)
    constructor
    · show ((iter_new_frame (ZXScreen.new m p) n).new_frame).frame_counter = _
      rw [h1.1, hfc]
      omega
    · show ((iter_new_frame (ZXScreen.new m p) n).new_frame).flash = _
      rw [h1.2, hfc, hfl]
      have e1 : (n % 18446744073709551616 + 1) % 18446744073709551616 % 32 =
          (n + 1) % 32 := by
        omega
      rw [e1]
      by_cases hd : (n + 1) % 32 = 0
      · rw [if_pos hd]
        have e2 : (n + 1) / 32 = n / 32 + 1 := by omega
        rw [e2]
        rcases Nat.mod_two_eq_zero_or_one (n / 32) with h | h
        · have h3 : (n / 32 + 1) % 2 = 1 := by omega
          simp [h, h3]
        · have h3 : (n / 32 + 1) % 2 = 0 := by omega
          simp [h, h3]
      · rw [if_neg hd]
        have e2 : (n + 1) / 32 = n / 32 := by omega
        rw [e2]

/-! ### Address codec lemmas -/

set_option maxRecDepth 20000 in
set_option maxHeartbeats 2000000 in
/-- The bitmap row decode, as a function of the high and low address byte,
stays below 192 whenever the high byte is in the display-file range. -/
theorem decode_hl_bound :
    ∀ h, h < 88 → 64 ≤ h → ∀ l, l < 256 →
      (h &&& 0x07) ||| ((l >>> 2) &&& 0x38) ||| (((h <<< 3) % 256) &&& 0xC0) < 192 := by
  decide

set_option maxRecDepth 8000 in
/-- C4: for every pixel row in [0, 191], decoding the address produced by the
bitmap line encoder returns the original row:
`get_bitmap_line (get_bitmap_line_addr row) = row`. -/
theorem bitmap_addr_roundtrip (line : Nat) (h : line < 192) :
    get_bitmap_line (get_bitmap_line_addr line) = line := by
  revert h; revert line; decide

/-- Witness for C4 at row 100. -/
theorem bitmap_addr_roundtrip_witness :
    100 < 192 ∧ get_bitmap_line (get_bitmap_line_addr 100) = 100 :=
  ⟨by decide, bitmap_addr_roundtrip 100 (by decide)⟩

theorem bitmap_line_lt (addr : Nat) (h1 : 0x4000 ≤ addr) (h2 : addr ≤ 0x57FF) :
    get_bitmap_line addr < 192 := by
  show (((addr >>> 8) &&& 0xFF) &&& 0x07) |||
    (((addr &&& 0xFF) >>> 2) &&& 0x38) |||
    (((((addr >>> 8) &&& 0xFF) <<< 3) % 256) &&& 0xC0) < 192
  have e1 : addr >>> 8 = addr / 256 := by
    rw [Nat.shiftRight_eq_div_pow]
  have e2 : (addr / 256) &&& 0xFF = (addr / 256) % 256 := by
    have h8 := Nat.and_pow_two_sub_one_eq_mod (addr / 256) 8
    norm_num at h8
    exact h8
  rw [e1, e2]
  have hl : addr &&& 0xFF < 256 := by
    have := @Nat.and_le_right addr 0xFF
    omega
  exact decode_hl_bound (addr / 256 % 256) (by omega) (by omega) (addr &&& 0xFF) hl

theorem bitmap_col_lt (addr : Nat) : get_bitmap_col addr < 32 := by
  show ((addr &&& 0xFF) &&& 0x1F) < 32
  have := @Nat.and_le_right (addr &&& 0xFF) 0x1F
  omega

theorem attr_row_lt (addr : Nat) (h2 : addr ≤ 0x5AFF) : get_attr_row addr < 24 := by
  show (addr - 0x5800) / ATTR_COLS < 24
  have e : ATTR_COLS = 32 := rfl
  rw [e]
  omega

theorem attr_col_lt (addr : Nat) : get_attr_col addr < 32 := by
  show (addr - 0x5800) % ATTR_COLS < 32
  have e : ATTR_COLS = 32 := rfl
  rw [e]
  omega

theorem write_bitmap_byte_canvas (s : ZXScreen) (addr : Nat) (clocks : Clocks)
    (data : Nat) (s' : ZXScreen) (i : Nat)
    (h : s.write_bitmap_byte addr clocks data = some s') (hi : ¬inCanvas i) :
    s'.buffer i = s.buffer i := by
  unfold ZXScreen.write_bitmap_byte at h
  by_cases hr : 0x4000 ≤ addr ∧ addr ≤ 0x57FF
  · rw [if_pos hr] at h
    have h2 := Option.some.inj h
    rw [← h2]
    split
    · exact update_buffer_block_canvas _ _ _ i (bitmap_line_lt addr hr.1 hr.2)
        (bitmap_col_lt addr) hi
    · rfl
  · rw [if_neg hr] at h
    exact absurd h (by simp)

theorem write_attr_byte_canvas (s : ZXScreen) (addr : Nat) (clocks : Clocks)
    (value : Nat) (s' : ZXScreen) (i : Nat)
    (h : s.write_attr_byte addr clocks value = some s') (hi : ¬inCanvas i) :
    s'.buffer i = s.buffer i := by
  unfold ZXScreen.write_attr_byte at h
  by_cases hr : 0x5800 ≤ addr ∧ addr ≤ 0x5AFF
  · rw [if_pos hr] at h
    have h2 := Option.some.inj h
    rw [← h2]
    split
    · have hrow := attr_row_lt addr hr.2
      have hcol := attr_col_lt addr
      exact redraw_from_canvas _ _ _ _ i hcol (by omega) hi
    · rfl
  · rw [if_neg hr] at h
    exact absurd h (by simp)

/-- C9: every (line, column) decoded from a valid bitmap address lies within
[0,191]x[0,31], and every (row, column) decoded from a valid attribute
address lies within [0,23]x[0,31]. -/
theorem decoded_coords_in_range (addr : Nat) :
    (0x4000 ≤ addr → addr ≤ 0x57FF →
      get_bitmap_line addr < 192 ∧ get_bitmap_col addr < 32) ∧
    (0x5800 ≤ addr → addr ≤ 0x5AFF →
      get_attr_row addr < 24 ∧ get_attr_col addr < 32) :=
  ⟨fun h1 h2 => ⟨bitmap_line_lt addr h1 h2, bitmap_col_lt addr⟩,
   fun _ h2 => ⟨attr_row_lt addr h2, attr_col_lt addr⟩⟩

/-- Witness for C9 at the last bitmap address and the last attribute
address. -/
theorem decoded_coords_in_range_witness :
    (get_bitmap_line 0x57FF < 192 ∧ get_bitmap_col 0x57FF < 32) ∧
    (get_attr_row 0x5AFF < 24 ∧ get_attr_col 0x5AFF < 32) :=
  ⟨(decoded_coords_in_range 0x57FF).1 (by decide) (by decide),
   (decoded_coords_in_range 0x5AFF).2 (by decide) (by decide)⟩

/-! ### Palette lemmas -/

/-- C8: for every attribute and every flash phase, the palette applied with
`pixelState = true` equals the palette applied with `pixelState = false` to
the attribute with ink and paper swapped (flash and bright unchanged). -/
theorem get_rgba_ink_paper_swap (p : ZXPalette) (ink paper : ZXColor) (f b phase : Bool) :
    ZXPalette.get_rgba p ⟨ink, paper, f, b⟩ true phase =
      ZXPalette.get_rgba p ⟨paper, ink, f, b⟩ false phase := by
  cases f <;> cases b <;> cases phase <;> rfl

/-! ### Bitmap write (C1) -/

/-- C1: for every address in [0x4000, 0x57FF], every clock and every data
byte, `write_bitmap_byte` stores the byte into the bitmap grid at the
decoded (line, column) (leaving the rest of the grids and the flash/frame
state untouched); with
`blockTime = clocks_first_pixel + 2 + line * clocks_line + (column / 2) * 8`,
if `clock < blockTime` it rewrites exactly the corresponding 8x1 block of
the buffer from the new data and the block's current attribute, and if
`clock >= blockTime` the buffer is left entirely unchanged. -/
theorem write_bitmap_byte_spec (s : ZXScreen) (addr : Nat) (clocks : Clocks)
    (data : Nat) (h1 : 0x4000 ≤ addr) (h2 : addr ≤ 0x57FF) :
    ∃ s', s.write_bitmap_byte addr clocks data = some s' ∧
      s'.bitmap (get_bitmap_line addr) (get_bitmap_col addr) = data ∧
      (∀ l c, ¬(l = get_bitmap_line addr ∧ c = get_bitmap_col addr) →
        s'.bitmap l c = s.bitmap l c) ∧
      s'.attributes = s.attributes ∧
      s'.flash = s.flash ∧
      s'.frame_counter = s.frame_counter ∧
      s'.machine = s.machine ∧
      (clocks.count < s.machine.specs.clocks_first_pixel + 2 +
          get_bitmap_line addr * s.machine.specs.clocks_line +
          (get_bitmap_col addr / 2) * 8 →
        (∀ bit, bit < 8 →
          readRGBA s'.buffer
              (blockBase (get_bitmap_line addr) (get_bitmap_col addr) + bit * 4) =
            ZXPalette.get_rgba s.palette
              (s.attributes (get_bitmap_line addr / 8) (get_bitmap_col addr))
              (pixel_state data bit) s.flash) ∧
        (∀ i, i < blockBase (get_bitmap_line addr) (get_bitmap_col addr) ∨
            blockBase (get_bitmap_line addr) (get_bitmap_col addr) + 32 ≤ i →
          s'.buffer i = s.buffer i)) ∧
      (s.machine.specs.clocks_first_pixel + 2 +
          get_bitmap_line addr * s.machine.specs.clocks_line +
          (get_bitmap_col addr / 2) * 8 ≤ clocks.count →
        s'.buffer = s.buffer) := by
  have hrange : 0x4000 ≤ addr ∧ addr ≤ 0x57FF := ⟨h1, h2⟩
  unfold ZXScreen.write_bitmap_byte
  rw [if_pos hrange]
  set line := get_bitmap_line addr with hline
  set col := get_bitmap_col addr with hcol
  set s1 : ZXScreen := { s with
    bitmap := fun l c => if l = line ∧ c = col then data else s.bitmap l c } with hs1
  have hbit : s1.bitmap line col = data := by
    show (if line = line ∧ col = col then data else s.bitmap line col) = data
    rw [if_pos ⟨rfl, rfl⟩]
  by_cases hc : clocks.count < s.machine.specs.clocks_first_pixel + 2 +
      line * s.machine.specs.clocks_line + (col / 2) * 8
  · refine ⟨s1.update_buffer_block line col, ?_, ?_, ?_, rfl, rfl, rfl, rfl, ?_, ?_⟩
    · exact congrArg some (if_pos hc)
    · rw [update_buffer_block_bitmap]
      exact hbit
    · intro l c hlc
      rw [update_buffer_block_bitmap]
      show (if l = line ∧ c = col then data else s.bitmap l c) = s.bitmap l c
      rw [if_neg hlc]
    · intro _
      constructor
      · intro bit hb
        have := update_buffer_block_read s1 line col bit hb
        rw [hbit] at this
        exact this
      · intro i hi
        exact update_buffer_block_outside s1 line col i hi
    · intro hge
      omega
  · refine ⟨s1, ?_, hbit, ?_, rfl, rfl, rfl, rfl, ?_, ?_⟩
    · exact congrArg some (if_neg hc)
    · intro l c hlc
      show (if l = line ∧ c = col then data else s.bitmap l c) = s.bitmap l c
      rw [if_neg hlc]
    · intro hlt
      omega
    · intro _
      rfl

/-- Witness for C1: a fresh 48K-style screen, address 0x4000, clock 0
(before the block time), data 0xAA. -/
theorem write_bitmap_byte_spec_witness :
    (0x4000 ≤ 0x4000 ∧ (0x4000 : Nat) ≤ 0x57FF) ∧
    (∃ s', (ZXScreen.new ⟨⟨14336, 224⟩⟩ ZXPalette.default).write_bitmap_byte
        0x4000 ⟨0⟩ 0xAA = some s' ∧
      s'.bitmap (get_bitmap_line 0x4000) (get_bitmap_col 0x4000) = 0xAA ∧
      (∀ l c, ¬(l = get_bitmap_line 0x4000 ∧ c = get_bitmap_col 0x4000) →
        s'.bitmap l c = (ZXScreen.new ⟨⟨14336, 224⟩⟩ ZXPalette.default).bitmap l c) ∧
      s'.attributes = (ZXScreen.new ⟨⟨14336, 224⟩⟩ ZXPalette.default).attributes ∧
      s'.flash = (ZXScreen.new ⟨⟨14336, 224⟩⟩ ZXPalette.default).flash ∧
      s'.frame_counter = (ZXScreen.new ⟨⟨14336, 224⟩⟩ ZXPalette.default).frame_counter ∧
      s'.machine = (ZXScreen.new ⟨⟨14336, 224⟩⟩ ZXPalette.default).machine ∧
      ((0 : Nat) < (14336 : Nat) + 2 +
          get_bitmap_line 0x4000 * 224 + (get_bitmap_col 0x4000 / 2) * 8 →
        (∀ bit, bit < 8 →
          readRGBA s'.buffer
              (blockBase (get_bitmap_line 0x4000) (get_bitmap_col 0x4000) + bit * 4) =
            ZXPalette.get_rgba ZXPalette.default
              ((ZXScreen.new ⟨⟨14336, 224⟩⟩ ZXPalette.default).attributes
                (get_bitmap_line 0x4000 / 8) (get_bitmap_col 0x4000))
              (pixel_state 0xAA bit) false) ∧
        (∀ i, i < blockBase (get_bitmap_line 0x4000) (get_bitmap_col 0x4000) ∨
            blockBase (get_bitmap_line 0x4000) (get_bitmap_col 0x4000) + 32 ≤ i →
          s'.buffer i = (ZXScreen.new ⟨⟨14336, 224⟩⟩ ZXPalette.default).buffer i)) ∧
      ((14336 : Nat) + 2 + get_bitmap_line 0x4000 * 224 +
          (get_bitmap_col 0x4000 / 2) * 8 ≤ (0 : Nat) →
        s'.buffer = (ZXScreen.new ⟨⟨14336, 224⟩⟩ ZXPalette.default).buffer)) :=
  ⟨⟨by decide, by decide⟩,
    write_bitmap_byte_spec (ZXScreen.new ⟨⟨14336, 224⟩⟩ ZXPalette.default)
      0x4000 ⟨0⟩ 0xAA (by decide) (by decide)⟩

/-! ### Attribute write (C2, C3) -/

/-- C2: for every address in [0x5800, 0x5AFF], `write_attr_byte` stores the
decoded attribute, computes `beamLine` as 0 when
`clock < clocks_first_pixel + 2 + (col / 2) * 8` and as
`(clock - (clocks_first_pixel + 2 + (col / 2) * 8)) / clocks_line + 1`
otherwise (floor division), and whenever `clock < blockTime` it redraws
exactly the pixel rows from `(beamLine % 8) + row * 8` up to
`(row + 1) * 8 - 1` of that column using the newly stored attribute. -/
theorem write_attr_byte_spec (s : ZXScreen) (addr : Nat) (clocks : Clocks)
    (value : Nat) (h1 : 0x5800 ≤ addr) (h2 : addr ≤ 0x5AFF) :
    ∃ s', s.write_attr_byte addr clocks value = some s' ∧
      s'.attributes (get_attr_row addr) (get_attr_col addr) = ZXAttribute.from_byte value ∧
      (∀ r c, ¬(r = get_attr_row addr ∧ c = get_attr_col addr) →
        s'.attributes r c = s.attributes r c) ∧
      s'.bitmap = s.bitmap ∧
      s'.flash = s.flash ∧
      s'.frame_counter = s.frame_counter ∧
      s'.machine = s.machine ∧
      beam_line_calc s.machine.specs clocks.count (get_attr_col addr) =
        (if clocks.count < s.machine.specs.clocks_first_pixel + 2 + (get_attr_col addr / 2) * 8
         then 0
         else (clocks.count -
            (s.machine.specs.clocks_first_pixel + 2 + (get_attr_col addr / 2) * 8)) /
              s.machine.specs.clocks_line + 1) ∧
      (clocks.count <
          attr_block_time s.machine.specs clocks.count (get_attr_row addr) (get_attr_col addr) →
        (∀ line,
          beam_line_calc s.machine.specs clocks.count (get_attr_col addr) % 8 +
            get_attr_row addr * 8 ≤ line →
          line < (get_attr_row addr + 1) * 8 →
          ∀ bit, bit < 8 →
            readRGBA s'.buffer (blockBase line (get_attr_col addr) + bit * 4) =
              ZXPalette.get_rgba s.palette (ZXAttribute.from_byte value)
                (pixel_state (s.bitmap line (get_attr_col addr)) bit) s.flash) ∧
        (∀ i,
          (∀ line,
            beam_line_calc s.machine.specs clocks.count (get_attr_col addr) % 8 +
              get_attr_row addr * 8 ≤ line →
            line < (get_attr_row addr + 1) * 8 →
            i < blockBase line (get_attr_col addr) ∨
              blockBase line (get_attr_col addr) + 32 ≤ i) →
          s'.buffer i = s.buffer i)) ∧
      (attr_block_time s.machine.specs clocks.count (get_attr_row addr) (get_attr_col addr) ≤
          clocks.count →
        s'.buffer = s.buffer) := by
  have hrange : 0x5800 ≤ addr ∧ addr ≤ 0x5AFF := ⟨h1, h2⟩
  unfold ZXScreen.write_attr_byte
  rw [if_pos hrange]
  set row := get_attr_row addr with hrow
  set col := get_attr_col addr with hcol
  set B := beam_line_calc s.machine.specs clocks.count col with hBdef
  set s1 : ZXScreen := { s with
    attributes := fun r c =>
      if r = row ∧ c = col then ZXAttribute.from_byte value else s.attributes r c } with hs1
  have hattr_at : s1.attributes row col = ZXAttribute.from_byte value := by
    show (if row = row ∧ col = col then ZXAttribute.from_byte value
      else s.attributes row col) = ZXAttribute.from_byte value
    rw [if_pos ⟨rfl, rfl⟩]
  have hattr_off : ∀ r c, ¬(r = row ∧ c = col) → s1.attributes r c = s.attributes r c := by
    intro r c hrc
    show (if r = row ∧ c = col then ZXAttribute.from_byte value
      else s.attributes r c) = s.attributes r c
    rw [if_neg hrc]
  by_cases hc : clocks.count < attr_block_time s.machine.specs clocks.count row col
  · have hf := redraw_from_fields s1 col (B % 8 + row * 8)
      ((row + 1) * 8 - (B % 8 + row * 8))
    refine ⟨_, congrArg some (if_pos hc), ?_, ?_, hf.1, hf.2.2.2.2.1, hf.2.2.2.2.2,
      hf.2.2.1, rfl, ?_, ?_⟩
    · rw [hf.2.1]
      exact hattr_at
    · intro r c hrc
      rw [hf.2.1]
      exact hattr_off r c hrc
    · intro _
      constructor
      · intro line hlo hhi bit hbit
        have hk := redraw_from_read s1 col (B % 8 + row * 8)
          ((row + 1) * 8 - (B % 8 + row * 8)) (line - (B % 8 + row * 8)) bit
          (by omega) hbit
        have e : B % 8 + row * 8 + (line - (B % 8 + row * 8)) = line := by omega
        rw [e] at hk
        have ediv : line / 8 = row := by omega
        rw [ediv] at hk
        rw [hattr_at] at hk
        exact hk
      · intro i hi
        apply redraw_from_outside
        intro k hkk
        exact hi (B % 8 + row * 8 + k) (by omega) (by omega)
    · intro hge
      omega
  · refine ⟨s1, congrArg some (if_neg hc), hattr_at, hattr_off, rfl, rfl, rfl, rfl,
      rfl, ?_, ?_⟩
    · intro hlt
      omega
    · intro _
      rfl

/-- Witness for C2: fresh 48K-style screen, address 0x5800 (attribute cell
(0,0)), clock 0 (before the block time), value 0x47. -/
theorem write_attr_byte_spec_witness :
    ((0x5800 : Nat) ≤ 0x5800 ∧ (0x5800 : Nat) ≤ 0x5AFF) ∧
    (∃ s', (ZXScreen.new ⟨⟨14336, 224⟩⟩ ZXPalette.default).write_attr_byte
        0x5800 ⟨0⟩ 0x47 = some s' ∧
      s'.attributes (get_attr_row 0x5800) (get_attr_col 0x5800) =
        ZXAttribute.from_byte 0x47 ∧
      (∀ r c, ¬(r = get_attr_row 0x5800 ∧ c = get_attr_col 0x5800) →
        s'.attributes r c =
          (ZXScreen.new ⟨⟨14336, 224⟩⟩ ZXPalette.default).attributes r c) ∧
      s'.bitmap = (ZXScreen.new ⟨⟨14336, 224⟩⟩ ZXPalette.default).bitmap ∧
      s'.flash = (ZXScreen.new ⟨⟨14336, 224⟩⟩ ZXPalette.default).flash ∧
      s'.frame_counter = (ZXScreen.new ⟨⟨14336, 224⟩⟩ ZXPalette.default).frame_counter ∧
      s'.machine = (ZXScreen.new ⟨⟨14336, 224⟩⟩ ZXPalette.default).machine ∧
      beam_line_calc ⟨14336, 224⟩ 0 (get_attr_col 0x5800) =
        (if (0 : Nat) < (14336 : Nat) + 2 + (get_attr_col 0x5800 / 2) * 8 then 0
         else ((0 : Nat) - ((14336 : Nat) + 2 + (get_attr_col 0x5800 / 2) * 8)) / 224 + 1) ∧
      ((0 : Nat) < attr_block_time ⟨14336, 224⟩ 0 (get_attr_row 0x5800) (get_attr_col 0x5800) →
        (∀ line,
          beam_line_calc ⟨14336, 224⟩ 0 (get_attr_col 0x5800) % 8 +
            get_attr_row 0x5800 * 8 ≤ line →
          line < (get_attr_row 0x5800 + 1) * 8 →
          ∀ bit, bit < 8 →
            readRGBA s'.buffer (blockBase line (get_attr_col 0x5800) + bit * 4) =
              ZXPalette.get_rgba ZXPalette.default (ZXAttribute.from_byte 0x47)
                (pixel_state
                  ((ZXScreen.new ⟨⟨14336, 224⟩⟩ ZXPalette.default).bitmap line
                    (get_attr_col 0x5800)) bit) false) ∧
        (∀ i,
          (∀ line,
            beam_line_calc ⟨14336, 224⟩ 0 (get_attr_col 0x5800) % 8 +
              get_attr_row 0x5800 * 8 ≤ line →
            line < (get_attr_row 0x5800 + 1) * 8 →
            i < blockBase line (get_attr_col 0x5800) ∨
              blockBase line (get_attr_col 0x5800) + 32 ≤ i) →
          s'.buffer i = (ZXScreen.new ⟨⟨14336, 224⟩⟩ ZXPalette.default).buffer i)) ∧
      (attr_block_time ⟨14336, 224⟩ 0 (get_attr_row 0x5800) (get_attr_col 0x5800) ≤ (0 : Nat) →
        s'.buffer = (ZXScreen.new ⟨⟨14336, 224⟩⟩ ZXPalette.default).buffer)) :=
  ⟨⟨by decide, by decide⟩,
    write_attr_byte_spec (ZXScreen.new ⟨⟨14336, 224⟩⟩ ZXPalette.default)
      0x5800 ⟨0⟩ 0x47 (by decide) (by decide)⟩

/-- C3: in `write_attr_byte`, when the computed beam line is at or past the
end of the attribute's row block (`beamLine >= (row + 1) * 8`), the chosen
threshold is the end of the row block
(`clocks_first_pixel + 2 + (row * 8 + 7) * clocks_line + (col / 2) * 8`),
the condition `clock < blockTime` is never satisfied, and the pixel buffer
is not redrawn during the call: only the attribute grid changes. -/
theorem write_attr_byte_beam_past (s : ZXScreen) (addr : Nat) (clocks : Clocks)
    (value : Nat) (h1 : 0x5800 ≤ addr) (h2 : addr ≤ 0x5AFF)
    (hbeam : (get_attr_row addr + 1) * 8 ≤
      beam_line_calc s.machine.specs clocks.count (get_attr_col addr)) :
    attr_block_time s.machine.specs clocks.count (get_attr_row addr) (get_attr_col addr) =
      s.machine.specs.clocks_first_pixel + 2 +
        ((get_attr_row addr * 8) + 7) * s.machine.specs.clocks_line +
        (get_attr_col addr / 2) * 8 ∧
    ¬(clocks.count <
      attr_block_time s.machine.specs clocks.count (get_attr_row addr) (get_attr_col addr)) ∧
    ∃ s', s.write_attr_byte addr clocks value = some s' ∧
      s'.buffer = s.buffer ∧
      s'.bitmap = s.bitmap ∧
      s'.flash = s.flash ∧
      s'.frame_counter = s.frame_counter ∧
      s'.machine = s.machine ∧
      s'.attributes (get_attr_row addr) (get_attr_col addr) = ZXAttribute.from_byte value ∧
      (∀ r c, ¬(r = get_attr_row addr ∧ c = get_attr_col addr) →
        s'.attributes r c = s.attributes r c) := by
  have hrange : 0x5800 ≤ addr ∧ addr ≤ 0x5AFF := ⟨h1, h2⟩
  set row := get_attr_row addr with hrow
  set col := get_attr_col addr with hcol
  set B := beam_line_calc s.machine.specs clocks.count col with hBdef
  -- the third branch of the threshold is taken
  have hb1 : ¬(B ≤ row * 8) := by omega
  have hb2 : ¬(B < (row + 1) * 8) := by omega
  have hbt : attr_block_time s.machine.specs clocks.count row col =
      s.machine.specs.clocks_first_pixel + 2 +
        ((row * 8) + 7) * s.machine.specs.clocks_line + (col / 2) * 8 := by
    unfold attr_block_time
    rw [← hBdef, if_neg hb1, if_neg hb2]
  -- the clock is at or past the end-of-row threshold
  have hLpos : 0 < s.machine.specs.clocks_line := by
    by_contra hL0
    have hL : s.machine.specs.clocks_line = 0 := by omega
    have hB1 : B ≤ 1 := by
      rw [hBdef]
      unfold beam_line_calc
      rw [hL]
      split
      · omega
      · simp
    omega
  have hX : s.machine.specs.clocks_first_pixel + 2 + (col / 2 * 8) ≤ clocks.count := by
    by_contra hlt
    have : B = 0 := by
      rw [hBdef]
      unfold beam_line_calc
      rw [if_pos (by omega)]
    omega
  have hdiv : (row * 8) + 7 ≤
      (clocks.count - (s.machine.specs.clocks_first_pixel + 2 + (col / 2 * 8))) /
        s.machine.specs.clocks_line := by
    have hBval : B = (clocks.count -
        (s.machine.specs.clocks_first_pixel + 2 + (col / 2 * 8))) /
          s.machine.specs.clocks_line + 1 := by
      rw [hBdef]
      unfold beam_line_calc
      rw [if_neg (by omega)]
    omega
  have hmul : ((row * 8) + 7) * s.machine.specs.clocks_line ≤
      clocks.count - (s.machine.specs.clocks_first_pixel + 2 + (col / 2 * 8)) :=
    (Nat.le_div_iff_mul_le hLpos).mp hdiv
  have hnot : ¬(clocks.count < attr_block_time s.machine.specs clocks.count row col) := by
    rw [hbt]
    omega
  refine ⟨hbt, hnot, ?_⟩
  unfold ZXScreen.write_attr_byte
  rw [if_pos hrange]
  refine ⟨_, congrArg some (if_neg hnot), rfl, rfl, rfl, rfl, rfl, ?_, ?_⟩
  · show (if row = row ∧ col = col then ZXAttribute.from_byte value
      else s.attributes row col) = ZXAttribute.from_byte value
    rw [if_pos ⟨rfl, rfl⟩]
  · intro r c hrc
    show (if r = row ∧ c = col then ZXAttribute.from_byte value
      else s.attributes r c) = s.attributes r c
    rw [if_neg hrc]

/-- Witness for C3: fresh 48K-style screen, address 0x5800 (row 0, col 0),
clock large enough that the beam is past row block 0. -/
theorem write_attr_byte_beam_past_witness :
    (((0x5800 : Nat) ≤ 0x5800 ∧ (0x5800 : Nat) ≤ 0x5AFF) ∧
      (get_attr_row 0x5800 + 1) * 8 ≤ beam_line_calc ⟨14336, 224⟩ 20000 (get_attr_col 0x5800)) ∧
    (attr_block_time ⟨14336, 224⟩ 20000 (get_attr_row 0x5800) (get_attr_col 0x5800) =
      (14336 : Nat) + 2 + ((get_attr_row 0x5800 * 8) + 7) * 224 +
        (get_attr_col 0x5800 / 2) * 8 ∧
    ¬((20000 : Nat) <
      attr_block_time ⟨14336, 224⟩ 20000 (get_attr_row 0x5800) (get_attr_col 0x5800)) ∧
    ∃ s', (ZXScreen.new ⟨⟨14336, 224⟩⟩ ZXPalette.default).write_attr_byte
        0x5800 ⟨20000⟩ 0x55 = some s' ∧
      s'.buffer = (ZXScreen.new ⟨⟨14336, 224⟩⟩ ZXPalette.default).buffer ∧
      s'.bitmap = (ZXScreen.new ⟨⟨14336, 224⟩⟩ ZXPalette.default).bitmap ∧
      s'.flash = (ZXScreen.new ⟨⟨14336, 224⟩⟩ ZXPalette.default).flash ∧
      s'.frame_counter = (ZXScreen.new ⟨⟨14336, 224⟩⟩ ZXPalette.default).frame_counter ∧
      s'.machine = (ZXScreen.new ⟨⟨14336, 224⟩⟩ ZXPalette.default).machine ∧
      s'.attributes (get_attr_row 0x5800) (get_attr_col 0x5800) =
        ZXAttribute.from_byte 0x55 ∧
      (∀ r c, ¬(r = get_attr_row 0x5800 ∧ c = get_attr_col 0x5800) →
        s'.attributes r c =
          (ZXScreen.new ⟨⟨14336, 224⟩⟩ ZXPalette.default).attributes r c)) :=
  ⟨⟨⟨by decide, by decide⟩, by decide⟩,
    write_attr_byte_beam_past (ZXScreen.new ⟨⟨14336, 224⟩⟩ ZXPalette.default)
      0x5800 ⟨20000⟩ 0x55 (by decide) (by decide) (by decide)⟩

/-! ### Error handling (C7) -/

/-- C7: `write_bitmap_byte` fails (panic modelled as `none`) exactly when the
address is outside [0x4000, 0x57FF], `write_attr_byte` exactly when outside
[0x5800, 0x5AFF], and `ZXColor.from_bits` exactly when the value exceeds 7.
In each failing case the result is `none`: no modified renderer state is
produced. -/
theorem fail_fast_exact :
    (∀ (s : ZXScreen) (addr : Nat) (clocks : Clocks) (data : Nat),
        s.write_bitmap_byte addr clocks data = none ↔
          ¬(0x4000 ≤ addr ∧ addr ≤ 0x57FF)) ∧
    (∀ (s : ZXScreen) (addr : Nat) (clocks : Clocks) (value : Nat),
        s.write_attr_byte addr clocks value = none ↔
          ¬(0x5800 ≤ addr ∧ addr ≤ 0x5AFF)) ∧
    (∀ bits : Nat, ZXColor.from_bits bits = none ↔ 7 < bits) := by
  refine ⟨?_, ?_, ?_⟩
  · intro s addr clocks data
    by_cases h : 0x4000 ≤ addr ∧ addr ≤ 0x57FF <;>
      simp [ZXScreen.write_bitmap_byte, h]
  · intro s addr clocks value
    by_cases h : 0x5800 ≤ addr ∧ addr ≤ 0x5AFF <;>
      simp [ZXScreen.write_attr_byte, h]
  · intro bits
    by_cases h : bits ≤ 7
    · interval_cases bits <;> simp [ZXColor.from_bits]
    · simp only [ZXColor.from_bits, if_neg h]
      exact iff_of_true trivial (by omega)

/-- Witness for C7: a one-below-range bitmap address fails, and color code 8
fails. -/
theorem fail_fast_exact_witness :
    (ZXScreen.new ⟨⟨0, 224⟩⟩ ZXPalette.default).write_bitmap_byte 0x3FFF ⟨0⟩ 0 = none ∧
      ZXColor.from_bits 8 = none :=
  ⟨(fail_fast_exact.1 _ 0x3FFF ⟨0⟩ 0).mpr (by decide),
   (fail_fast_exact.2.2 8).mpr (by decide)⟩

/-! ### Border (C10) -/

/-- C10: the state produced by `set_border` is independent of the clock
argument: the clock parameter is never consulted. -/
theorem set_border_clock_independent (s : ZXScreen) (color : Nat) (c1 c2 : Clocks) :
    s.set_border color c1 = s.set_border color c2 :=
  rfl

/-! ### Region separation (C5) -/

/-- C5: `set_border` writes only the 16x16 pixel patch at the top-left
corner (setting every patch pixel to the border color), that patch lies in
the border region, `set_border` never touches the canvas interior, and the
8x1 block updates driven by `update_buffer_block` — and hence `new_frame`,
`write_bitmap_byte` and `write_attr_byte` — never touch anything outside
the canvas interior. -/
theorem region_separation :
    (∀ (s : ZXScreen) (color : Nat) (clocks : Clocks) (i : Nat), ¬inBorderPatch i →
      (s.set_border color clocks).buffer i = s.buffer i) ∧
    (∀ (s : ZXScreen) (color : Nat) (clocks : Clocks) (y x : Nat), y < 16 → x < 16 →
      readRGBA (s.set_border color clocks).buffer
          ((y * SCREEN_WIDTH + x) * BYTES_PER_PIXEL) =
        ZXPalette.get_rgba s.palette (ZXAttribute.from_byte color) true false) ∧
    (∀ i, inBorderPatch i → inBorder i) ∧
    (∀ (s : ZXScreen) (color : Nat) (clocks : Clocks) (i : Nat), inCanvas i →
      (s.set_border color clocks).buffer i = s.buffer i) ∧
    (∀ (s : ZXScreen) (line col i : Nat), line < CANVAS_HEIGHT → col < ATTR_COLS →
      ¬inCanvas i → (s.update_buffer_block line col).buffer i = s.buffer i) ∧
    (∀ (s : ZXScreen) (i : Nat), ¬inCanvas i → (s.new_frame).buffer i = s.buffer i) ∧
    (∀ (s : ZXScreen) (addr : Nat) (clocks : Clocks) (data : Nat) (s' : ZXScreen) (i : Nat),
      s.write_bitmap_byte addr clocks data = some s' → ¬inCanvas i →
      s'.buffer i = s.buffer i) ∧
    (∀ (s : ZXScreen) (addr : Nat) (clocks : Clocks) (value : Nat) (s' : ZXScreen) (i : Nat),
      s.write_attr_byte addr clocks value = some s' → ¬inCanvas i →
      s'.buffer i = s.buffer i) := by
  refine ⟨set_border_outside, set_border_read, borderPatch_subset_border, ?_, ?_,
    new_frame_canvas, write_bitmap_byte_canvas, write_attr_byte_canvas⟩
  · intro s color clocks i hi
    apply set_border_outside
    intro hp
    exact absurd hi (borderPatch_subset_border i hp).2
  · intro s line col i hl hc hi
    exact update_buffer_block_canvas s line col i hl hc hi

/-- Witness for C5: a canvas-interior byte is untouched by `set_border`, and
index 0 lies in the border patch and in the border region. -/
theorem region_separation_witness :
    ¬inBorderPatch 100000 ∧
    ((ZXScreen.new ⟨⟨14336, 224⟩⟩ ZXPalette.default).set_border 7 ⟨0⟩).buffer 100000 =
      (ZXScreen.new ⟨⟨14336, 224⟩⟩ ZXPalette.default).buffer 100000 ∧
    inBorderPatch 0 ∧ inBorder 0 :=
  ⟨by decide, region_separation.1 _ 7 ⟨0⟩ 100000 (by decide), by decide,
    region_separation.2.2.1 0 (by decide)⟩

/-! ### Flash cadence (C6) -/

/-- C6: starting from a fresh renderer (flash phase `false`, frame counter
0), after `k` calls to `new_frame` the flash phase equals the parity of
`k / 32` (so it toggles exactly on every 32nd call), and no call to
`write_bitmap_byte`, `write_attr_byte` or `set_border` changes the flash
phase or the frame counter. -/
theorem flash_cadence :
    (∀ (m : ZXMachine) (p : ZXPalette),
      (ZXScreen.new m p).flash = false ∧ (ZXScreen.new m p).frame_counter = 0) ∧
    (∀ (m : ZXMachine) (p : ZXPalette) (k : Nat),
      (iter_new_frame (ZXScreen.new m p) k).flash = decide ((k / 32) % 2 = 1)) ∧
    (∀ (s : ZXScreen) (color : Nat) (clocks : Clocks),
      (s.set_border color clocks).flash = s.flash ∧
      (s.set_border color clocks).frame_counter = s.frame_counter) ∧
    (∀ (s : ZXScreen) (addr : Nat) (clocks : Clocks) (data : Nat) (s' : ZXScreen),
      s.write_bitmap_byte addr clocks data = some s' →
      s'.flash = s.flash ∧ s'.frame_counter = s.frame_counter) ∧
    (∀ (s : ZXScreen) (addr : Nat) (clocks : Clocks) (value : Nat) (s' : ZXScreen),
      s.write_attr_byte addr clocks value = some s' →
      s'.flash = s.flash ∧ s'.frame_counter = s.frame_counter) := by
  refine ⟨fun m p => ⟨rfl, rfl⟩, fun m p k => (iter_new_frame_state m p k).2,
    fun s color clocks => ⟨rfl, rfl⟩, ?_, ?_⟩
  · intro s addr clocks data s' h
    unfold ZXScreen.write_bitmap_byte at h
    by_cases hr : 0x4000 ≤ addr ∧ addr ≤ 0x57FF
    · rw [if_pos hr] at h
      have h2 := Option.some.inj h
      rw [← h2]
      constructor <;> split <;> rfl
    · rw [if_neg hr] at h
      exact absurd h (by simp)
  · intro s addr clocks value s' h
    unfold ZXScreen.write_attr_byte at h
    by_cases hr : 0x5800 ≤ addr ∧ addr ≤ 0x5AFF
    · rw [if_pos hr] at h
      have h2 := Option.some.inj h
      rw [← h2]
      constructor
      · split
        · exact (redraw_from_fields _ _ _ _).2.2.2.2.1
        · rfl
      · split
        · exact (redraw_from_fields _ _ _ _).2.2.2.2.2
        · rfl
    · rw [if_neg hr] at h
      exact absurd h (by simp)

/-- Witness for C6: 64 frames flip the flash phase twice (back to `false`),
and a concrete bitmap write leaves the flash phase unchanged. -/
theorem flash_cadence_witness :
    (iter_new_frame (ZXScreen.new ⟨⟨14336, 224⟩⟩ ZXPalette.default) 64).flash =
      decide ((64 / 32) % 2 = 1) ∧
    (((ZXScreen.new ⟨⟨14336, 224⟩⟩ ZXPalette.default).write_bitmap_byte 0x4000 ⟨0⟩ 1).getD
        (ZXScreen.new ⟨⟨14336, 224⟩⟩ ZXPalette.default)).flash =
      (ZXScreen.new ⟨⟨14336, 224⟩⟩ ZXPalette.default).flash :=
  ⟨flash_cadence.2.1 ⟨⟨14336, 224⟩⟩ ZXPalette.default 64,
   (flash_cadence.2.2.2.1 (ZXScreen.new ⟨⟨14336, 224⟩⟩ ZXPalette.default) 0x4000 ⟨0⟩ 1
     (((ZXScreen.new ⟨⟨14336, 224⟩⟩ ZXPalette.default).write_bitmap_byte 0x4000 ⟨0⟩ 1).getD
       (ZXScreen.new ⟨⟨14336, 224⟩⟩ ZXPalette.default)) rfl).1⟩

end RustZX
